import Mathlib

/-!
# CharmCards gift-card validator: a shallow embedding

This file embeds the transaction-validity predicate of the gift-card
contract (`src/gift-cards/src/lib.rs`) in Lean 4 and proves the spec's
claims about it.

Modelling conventions:
* `u64` quantities are modelled as `Nat` (the claims never touch the
  wrap-around boundary; the source compares and sums small balances).
* the possibly-panicking paths (`assert_eq!`, `unreachable!`, and the
  `.unwrap()` inside `can_mint_gift_card_nft`) are modelled by returning
  `Option Bool`: `none` is an abort, `some b` a normal return of `b`.
  The `check!` macro of the SDK performs an early `return false`, so it
  is modelled as a plain boolean guard.
* the external `charms_sdk` collaborators (`charm_values`,
  `sum_token_amount`, `UtxoId::from_str`, SHA-256) are modelled from
  their interface as described by the spec, since their code is outside
  this repository.
-/

namespace GiftCards

/-- Contract identity: a 32-byte hash value, modelled as a natural number. -/
abbrev B32 := Nat

/-- Role tag NFT, the character tag used by the SDK for non-fungible roles. -/
def NFT : Char := 'n'

/-- Role tag TOKEN, the character tag used by the SDK for fungible roles. -/
def TOKEN : Char := 't'

/-- An app: role tag, contract identity and verification key (opaque, compared
for equality only). -/
structure App where
  tag : Char
  identity : B32
  vk : B32
deriving DecidableEq, Repr

/-- The NFT payload carried by a gift card, `GiftCardNftContent` in the source:
five immutable fields and the mutable `remaining_balance`. -/
structure GiftCardNftContent where
  brand : String
  image : String
  initial_amount : Nat
  expiration_date : Nat
  created_at : Nat
  remaining_balance : Nat
deriving DecidableEq, Repr

/-- Modelled from the spec: a typed payload attached to an output under some
app key. The source's `Data` is an opaque serialized value that may decode
as a text (witness), a `GiftCardNftContent`, or a `u64` token amount;
`other` stands for any payload that decodes as none of these. -/
inductive Data where
  | empty : Data
  | str : String → Data
  | nft : GiftCardNftContent → Data
  | num : Nat → Data
  | other : Data
deriving DecidableEq, Repr

/-- Decoding a `Data` as a text, the source's `w.value::<String>().ok()`. -/
def Data.asString : Data → Option String
  | Data.str s => some s
  | _ => none

/-- Decoding a `Data` as a gift card record, the source's
`data.value::<GiftCardNftContent>().ok()`. -/
def Data.asNft : Data → Option GiftCardNftContent
  | Data.nft c => some c
  | _ => none

/-- Decoding a `Data` as a `u64` token amount. -/
def Data.asU64 : Data → Option Nat
  | Data.num n => some n
  | _ => none

/-- A value bundle (the SDK's `Charms`): a finite map from app to payload,
modelled as an association list with at most the first binding per key
relevant. -/
abbrev Charms := List (App × Data)

/-- Modelled from the spec: the per-bundle charm lookup — the payload this
bundle carries under the given app key, if any. -/
def charmValue (app : App) (c : Charms) : Option Data :=
  (c.find? (fun p => p.1 = app)).map (·.2)

/-- Modelled from the spec: the SDK's `charm_values` — the payloads carried
under the given app key by each bundle in the list, skipping bundles that
carry none. -/
def charm_values (app : App) (l : List Charms) : List Data :=
  l.filterMap (charmValue app)

/-- Summing a list of payloads as `u64` token amounts; any payload that does
not decode as a `u64` fails the whole sum. -/
def sumTokenData : List Data → Option Nat
  | [] => some 0
  | d :: ds =>
    match d.asU64, sumTokenData ds with
    | some n, some m => some (n + m)
    | _, _ => none

/-- Modelled from the spec: the SDK's `sum_token_amount` — the total token
amount carried under the given app key by the bundles, erring when some
carried payload is not a `u64`. -/
def sum_token_amount (app : App) (l : List Charms) : Option Nat :=
  sumTokenData (charm_values app l)

/-- Modelled from the spec: a ledger reference, the SDK's `UtxoId` — a
source transaction id and an output index, textual canonical form
`<source-id>:<index>`. -/
structure UtxoId where
  txid : String
  vout : Nat
deriving DecidableEq, Repr

/-- Splitting a character list at every occurrence of a separator; the
pieces, in order, with separators dropped (an empty list yields one empty
piece). -/
def splitParts (sep : Char) : List Char → List (List Char)
  | [] => [[]]
  | c :: cs =>
    match splitParts sep cs with
    | [] => if c = sep then [[], []] else [[c]]
    | p :: ps => if c = sep then [] :: p :: ps else (c :: p) :: ps

/-- The numeric value of a decimal digit character, if it is one. -/
def digitVal (c : Char) : Option Nat :=
  if '0' ≤ c ∧ c ≤ '9' then some (c.toNat - 48) else none

/-- Folding decimal digits into a number, failing at the first non-digit. -/
def digitsToNatAux (acc : Nat) : List Char → Option Nat
  | [] => some acc
  | c :: cs =>
    match digitVal c with
    | some d => digitsToNatAux (10 * acc + d) cs
    | none => none

/-- Parsing a non-empty all-digit character list as a number. -/
def digitsToNat : List Char → Option Nat
  | [] => none
  | l => digitsToNatAux 0 l

/-- Modelled from the spec: parsing a funding-reference text of canonical
form `<source-id>:<index>`; the SDK's `UtxoId::from_str`, which errs on any
other shape (no colon, several colons, or a non-numeric index). -/
def UtxoId.from_str (s : String) : Option UtxoId :=
  match splitParts ':' s.data with
  | [t, i] => (digitsToNat i).map (fun n => { txid := String.mk t, vout := n })
  | _ => none

/-- A transaction: ordered inputs, each a ledger reference with its value
bundle, and ordered output value bundles. -/
structure Transaction where
  ins : List (UtxoId × Charms)
  outs : List Charms
deriving DecidableEq, Repr

/-- The value bundles of a transaction's inputs, the source's
`tx.ins.iter().map(|(_, v)| v)`. -/
def inputCharms (tx : Transaction) : List Charms :=
  tx.ins.map Prod.snd

/-- The decodable gift card records among a transaction's inputs under an
app key: `charm_values(app, ins).filter_map(|d| d.value().ok())`. -/
def inputRecords (app : App) (tx : Transaction) : List GiftCardNftContent :=
  (charm_values app (inputCharms tx)).filterMap Data.asNft

/-- The decodable gift card records among a transaction's outputs under an
app key: `charm_values(app, outs).filter_map(|d| d.value().ok())`. -/
def outputRecords (app : App) (tx : Transaction) : List GiftCardNftContent :=
  (charm_values app tx.outs).filterMap Data.asNft

/-- Modelled from the spec: the external SHA-256 primitive behind the
source's `hash` — a deterministic pure digest of a text, used by the
validator only through equality with a declared contract identity. -/
def hash (data : String) : B32 :=
  data.data.foldl (fun h c => (h * 31 + c.toNat) % 4294967296) 7

/-- The companion TOKEN app the NFT validator constructs inline:
same identity and verification key, TOKEN tag. -/
def token_app_of (app : App) : App :=
  { tag := TOKEN, identity := app.identity, vk := app.vk }

/-- The companion NFT app the TOKEN validator constructs inline:
same identity and verification key, NFT tag. -/
def nft_app_of (app : App) : App :=
  { tag := NFT, identity := app.identity, vk := app.vk }

/-- The source's `can_mint_gift_card_nft`: the witness must decode to a
text whose hash is the app identity; that text is parsed as a `UtxoId`
with `.unwrap()` (an abort, `none`, when it does not parse); the reference
must name one of the inputs; exactly one output must carry a charm under
the NFT app, and it must decode to a record whose `remaining_balance`
equals its `initial_amount`. -/
def can_mint_gift_card_nft (nft_app : App) (tx : Transaction) (w : Data) :
    Option Bool :=
  match w.asString with
  | none => some false
  | some w_str =>
    if hash w_str = nft_app.identity then
      match UtxoId.from_str w_str with
      | none => none
      | some w_utxo_id =>
        if tx.ins.any (fun p => p.1 = w_utxo_id) then
          match charm_values nft_app tx.outs with
          | [] => some false
          | [first_nft] =>
            match first_nft.asNft with
            | some nft_content =>
              some (decide
                (nft_content.remaining_balance = nft_content.initial_amount))
            | none => some false
          | _ :: _ :: _ => some false
        else some false
    else some false

/-- The source's `can_transfer_gift_card_nft`: some input record exists,
input and output record counts agree, and each in-order pair agrees on
brand, image, initial_amount, expiration_date and created_at
(`remaining_balance` is deliberately not compared). -/
def can_transfer_gift_card_nft (nft_app : App) (tx : Transaction) : Bool :=
  match inputRecords nft_app tx with
  | [] => false
  | i :: irest =>
    let input_nfts := i :: irest
    let output_nfts := outputRecords nft_app tx
    if input_nfts.length = output_nfts.length then
      (input_nfts.zip output_nfts).all (fun p =>
        decide (p.1.brand = p.2.brand ∧ p.1.image = p.2.image ∧
          p.1.initial_amount = p.2.initial_amount ∧
          p.1.expiration_date = p.2.expiration_date ∧
          p.1.created_at = p.2.created_at))
    else false

/-- The source's `can_burn_gift_card`: some input record, no output record;
if the output token sum errs, the input token sum must be positive;
otherwise the output token sum must be zero or below the input token sum. -/
def can_burn_gift_card (nft_app : App) (tx : Transaction) (token_app : App) :
    Bool :=
  match inputRecords nft_app tx with
  | [] => false
  | _ :: _ =>
    if (outputRecords nft_app tx).length = 0 then
      match sum_token_amount token_app (inputCharms tx) with
      | none => false
      | some input_token_amount =>
        match sum_token_amount token_app tx.outs with
        | none => decide (input_token_amount > 0)
        | some output_token_amount =>
          decide (output_token_amount = 0 ∨
            output_token_amount < input_token_amount)
    else false

/-- The source's `nft_contract_satisfied`: try mint first (its abort
propagates); with no NFT-role charm among inputs, succeed; with input
charm and no output charm, succeed when outputs carry positive tokens,
else defer to `can_burn_gift_card`; with charm on both sides defer to
`can_transfer_gift_card_nft`. -/
def nft_contract_satisfied (app : App) (tx : Transaction) (w : Data) :
    Option Bool :=
  match can_mint_gift_card_nft app tx w with
  | none => none
  | some true => some true
  | some false =>
    match charm_values app (inputCharms tx) with
    | [] => some true
    | _ :: _ =>
      match charm_values app tx.outs with
      | [] =>
        let has_output_tokens :=
          match sum_token_amount (token_app_of app) tx.outs with
          | some amt => decide (amt > 0)
          | none => false
        if has_output_tokens then some true
        else some (can_burn_gift_card app tx (token_app_of app))
      | _ :: _ => some (can_transfer_gift_card_nft app tx)

/-- The source's `can_mint_initial_tokens`: some output record exists under
the companion NFT app, no input bundle carries an NFT-role charm, the
input token sum is zero, and the output token sum equals the first output
record's `initial_amount`. -/
def can_mint_initial_tokens (token_app : App) (tx : Transaction) : Bool :=
  match outputRecords (nft_app_of token_app) tx with
  | [] => false
  | first_output_nft :: _ =>
    if tx.ins.any (fun p => (charmValue (nft_app_of token_app) p.2).isSome)
    then false
    else
      match sum_token_amount token_app (inputCharms tx) with
      | none => false
      | some input_token_amount =>
        if input_token_amount = 0 then
          match sum_token_amount token_app tx.outs with
          | none => false
          | some output_token_amount =>
            decide (output_token_amount = first_output_nft.initial_amount)
        else false

/-- The source's `can_transfer_tokens`: input and output token sums decode
and agree; when input records exist their `remaining_balance` total equals
the input token sum; and every output carrying a record must carry a token
amount equal to that record's `remaining_balance` in the same output. -/
def can_transfer_tokens (token_app : App) (tx : Transaction) : Bool :=
  match sum_token_amount token_app (inputCharms tx) with
  | none => false
  | some input_token_amount =>
    match sum_token_amount token_app tx.outs with
    | none => false
    | some output_token_amount =>
      if input_token_amount = output_token_amount then
        (match inputRecords (nft_app_of token_app) tx with
         | [] => true
         | i :: irest =>
           decide (((i :: irest).map
             (fun nft => nft.remaining_balance)).sum = input_token_amount))
        &&
        tx.outs.all (fun out =>
          match (charmValue (nft_app_of token_app) out).bind Data.asNft with
          | some nft =>
            match sum_token_amount token_app [out] with
            | some tokens => decide (nft.remaining_balance = tokens)
            | none => false
          | none => true)
      else false

/-- The source's `can_redeem_tokens`: some input record under the companion
NFT app and no output record; token sums decode; the output token amount
is positive, at most the first input record's `remaining_balance`, and at
most the input token amount; and the input token amount is at most that
`remaining_balance` plus the fixed tolerance 100. -/
def can_redeem_tokens (token_app : App) (tx : Transaction) : Bool :=
  match inputRecords (nft_app_of token_app) tx with
  | [] => false
  | input_nft :: _ =>
    if (outputRecords (nft_app_of token_app) tx).isEmpty then
      match sum_token_amount token_app (inputCharms tx) with
      | none => false
      | some input_token_amount =>
        match sum_token_amount token_app tx.outs with
        | none => false
        | some output_token_amount =>
          if output_token_amount = 0 then false
          else if input_nft.remaining_balance < output_token_amount then false
          else if input_token_amount < output_token_amount then false
          else if input_nft.remaining_balance + 100 < input_token_amount then
            false
          else true
    else false

/-- The source's `token_contract_satisfied`: any of transfer, initial mint
or redeem suffices, tried in that order. -/
def token_contract_satisfied (token_app : App) (tx : Transaction) : Bool :=
  can_transfer_tokens token_app tx ||
  can_mint_initial_tokens token_app tx ||
  can_redeem_tokens token_app tx

/-- The source's `app_contract`: assert the public input is empty (an abort
otherwise), then dispatch on the role tag; a tag that is neither `NFT` nor
`TOKEN` hits `unreachable!`, an abort. -/
def app_contract (app : App) (tx : Transaction) (x : Data) (w : Data) :
    Option Bool :=
  if x = Data.empty then
    if app.tag = NFT then nft_contract_satisfied app tx w
    else if app.tag = TOKEN then some (token_contract_satisfied app tx)
    else none
  else none

/-! ## Concrete instances used to exercise the validators -/

/-- An NFT-role app instance with an arbitrary identity. -/
def nftA : App := { tag := 'n', identity := 42, vk := 7 }

/-- The companion TOKEN-role app instance of `nftA`. -/
def tokA : App := { tag := 't', identity := 42, vk := 7 }

/-- A live gift card: 50 of the original 100 units left. -/
def rec50 : GiftCardNftContent :=
  { brand := "Acme", image := "img", initial_amount := 100,
    expiration_date := 1000, created_at := 10, remaining_balance := 50 }

/-- The same gift card after spending 10 more units. -/
def rec40 : GiftCardNftContent :=
  { brand := "Acme", image := "img", initial_amount := 100,
    expiration_date := 1000, created_at := 10, remaining_balance := 40 }

/-- A freshly minted 5-unit gift card. -/
def rec5 : GiftCardNftContent :=
  { brand := "B", image := "i", initial_amount := 5,
    expiration_date := 0, created_at := 0, remaining_balance := 5 }

/-- A freshly minted 7-unit gift card of another brand. -/
def rec7 : GiftCardNftContent :=
  { brand := "C", image := "j", initial_amount := 7,
    expiration_date := 0, created_at := 0, remaining_balance := 7 }

/-- A 5-unit gift card with 3 units left. -/
def rec53 : GiftCardNftContent :=
  { brand := "B", image := "i", initial_amount := 5,
    expiration_date := 0, created_at := 0, remaining_balance := 3 }

/-- A redeem transaction consuming TWO gift card records at once. -/
def txRedeem2 : Transaction :=
  { ins := [({ txid := "a", vout := 0 }, [(nftA, Data.nft rec50)]),
            ({ txid := "a", vout := 1 }, [(nftA, Data.nft rec50)]),
            ({ txid := "a", vout := 2 }, [(tokA, Data.num 10)])],
    outs := [[(tokA, Data.num 10)]] }

/-- A well-formed full redeem of a single 50-unit gift card. -/
def txRedeem1 : Transaction :=
  { ins := [({ txid := "a", vout := 0 },
             [(nftA, Data.nft rec50), (tokA, Data.num 50)])],
    outs := [[(tokA, Data.num 50)]] }

/-- An initial-issuance transaction producing TWO gift card records. -/
def txMint2 : Transaction :=
  { ins := [],
    outs := [[(nftA, Data.nft rec5)], [(nftA, Data.nft rec7)],
             [(tokA, Data.num 5)]] }

/-- A well-formed initial issuance of one 5-unit gift card. -/
def txMint1 : Transaction :=
  { ins := [], outs := [[(nftA, Data.nft rec5), (tokA, Data.num 5)]] }

/-- A funding-reference text in canonical form. -/
def mintStr : String :=
  "dc78b09d767c8565c4a58a95e7ad5ee22b28fc1685535056a395dc94929cdd5f:1"

/-- The ledger reference `mintStr` denotes. -/
def mintUtxo : UtxoId :=
  { txid := "dc78b09d767c8565c4a58a95e7ad5ee22b28fc1685535056a395dc94929cdd5f",
    vout := 1 }

/-- A freshly minted 100-unit gift card. -/
def recM : GiftCardNftContent :=
  { brand := "Acme", image := "img", initial_amount := 100,
    expiration_date := 1000, created_at := 10, remaining_balance := 100 }

/-- The NFT app whose identity is the hash of `mintStr`. -/
def mintNftApp : App := { tag := 'n', identity := hash mintStr, vk := 7 }

/-- A well-formed NFT mint funded by `mintUtxo`. -/
def txNftMint : Transaction :=
  { ins := [(mintUtxo, [])],
    outs := [[(mintNftApp, Data.nft recM)]] }

/-- A conserving token transfer keeping the record and its 50 tokens
together. -/
def txXfer : Transaction :=
  { ins := [({ txid := "a", vout := 0 },
             [(nftA, Data.nft rec50), (tokA, Data.num 50)])],
    outs := [[(nftA, Data.nft rec50), (tokA, Data.num 50)]] }

/-- A pure burn: a record consumed, nothing at all produced, and no token
balance anywhere. -/
def txBurn0 : Transaction :=
  { ins := [({ txid := "a", vout := 0 }, [(nftA, Data.nft rec50)])],
    outs := [] }

/-- An NFT transfer in which only `remaining_balance` changes. -/
def txNftXfer : Transaction :=
  { ins := [({ txid := "a", vout := 0 }, [(nftA, Data.nft rec50)])],
    outs := [[(nftA, Data.nft rec40)]] }

/-- An NFT app whose identity is the hash of a text that is not a
well-formed funding reference. -/
def appX : App := { tag := 'n', identity := hash "x", vk := 7 }

/-- The empty transaction. -/
def txE : Transaction := { ins := [], outs := [] }

/-- An app with a role tag that is neither `NFT` nor `TOKEN`. -/
def appQ : App := { tag := 'q', identity := 0, vk := 0 }

/-- A transaction with no token balances at all but one output record with
a positive `remaining_balance`. -/
def txT : Transaction :=
  { ins := [], outs := [[(nftA, Data.nft rec53)]] }

/-! ## Helper lemmas -/

/-- When a double filterMap is empty, every element maps to `none` through
the composition. -/
theorem bind_none_of_filterMap_filterMap_nil {α β γ : Type}
    (g : α → Option β) (f : β → Option γ) (l : List α)
    (hnil : (l.filterMap g).filterMap f = []) :
    ∀ a ∈ l, (g a).bind f = none := by
  intro a ha
  cases hg : g a with
  | none => rfl
  | some b =>
    have hb : b ∈ l.filterMap g := List.mem_filterMap.mpr ⟨a, ha, hg⟩
    have := (List.filterMap_eq_nil_iff.mp hnil) b hb
    simp [hg, this]

/-- A nonempty filterMap comes from a nonempty list. -/
theorem ne_nil_of_filterMap_ne_nil {α β : Type} (f : α → Option β)
    (l : List α) (h : l.filterMap f ≠ []) : l ≠ [] := by
  intro hl
  exact h (by simp [hl])

/-! ## The claims -/

/-- C8: for every role tag, transaction, and witness, invoking the
top-level predicate with a non-empty public input is an unconditional
failure (the assertion aborts the call); acceptance is never returned. -/
theorem C8_nonempty_public_input_aborts (app : App) (tx : Transaction)
    (x w : Data) (hx : x ≠ Data.empty) :
    app_contract app tx x w = none := by
  unfold app_contract
  simp [hx]

/-- Witness for C8 at a concrete non-empty public input. -/
theorem C8_nonempty_public_input_aborts_witness :
    app_contract nftA txE (Data.str "z") Data.empty = none :=
  C8_nonempty_public_input_aborts nftA txE (Data.str "z") Data.empty
    (by decide)

/-- C9: with an empty public input, a recognized role tag dispatches to the
corresponding validator (the unreachable branch is never taken), while a
tag that is neither `NFT` nor `TOKEN` aborts the call for every public
input — a fatal precondition failure, never a soft rejection. -/
theorem C9_dispatch_total_on_recognized_tags (app : App) (tx : Transaction)
    (w : Data) :
    (app.tag = NFT →
      app_contract app tx Data.empty w = nft_contract_satisfied app tx w) ∧
    (app.tag = TOKEN →
      app_contract app tx Data.empty w =
        some (token_contract_satisfied app tx)) ∧
    (app.tag ≠ NFT → app.tag ≠ TOKEN →
      ∀ x : Data, app_contract app tx x w = none) := by
  refine ⟨fun hn => ?_, fun ht => ?_, fun hn ht x => ?_⟩
  · simp [app_contract, hn]
  · have : TOKEN ≠ NFT := by decide
    simp [app_contract, ht, this]
  · unfold app_contract
    by_cases hx : x = Data.empty <;> simp [hx, hn, ht]

/-- Witness for C9: a tag outside the two recognized values aborts. -/
theorem C9_dispatch_total_on_recognized_tags_witness :
    app_contract appQ txE Data.empty Data.empty = none :=
  (C9_dispatch_total_on_recognized_tags appQ txE Data.empty).2.2
    (by decide) (by decide) Data.empty

/-- C7 counterexample: a transaction whose inputs carry nothing for the NFT
role, yet the validator does not return success — the witness decodes to a
text whose hash is the identity but which does not parse as a funding
reference, so the mint check aborts instead. -/
theorem C7_counterexample :
    charm_values appX (inputCharms txE) = [] ∧
    nft_contract_satisfied appX txE (Data.str "x") = none := by decide

/-- C7 amended: for every transaction whose inputs carry no value for the
NFT role, the validator returns success for every witness on which the
mint check does not abort; an aborting witness makes the whole call abort
rather than return. -/
theorem C7_no_input_charm_defers (app : App) (tx : Transaction) (w : Data)
    (hin : charm_values app (inputCharms tx) = [])
    (hmint : can_mint_gift_card_nft app tx w ≠ none) :
    nft_contract_satisfied app tx w = some true := by
  unfold nft_contract_satisfied
  cases h : can_mint_gift_card_nft app tx w with
  | none => exact absurd h hmint
  | some b => cases b <;> simp [hin]

/-- Witness for the amended C7 at the empty transaction. -/
theorem C7_no_input_charm_defers_witness :
    nft_contract_satisfied appX txE Data.empty = some true :=
  C7_no_input_charm_defers appX txE Data.empty (by decide) (by decide)

/-- C5 counterexample: a pure burn (record among the inputs, nothing among
the outputs, output token sum zero) whose input token balance is zero is
nonetheless accepted by the NFT validator. -/
theorem C5_counterexample :
    inputRecords nftA txBurn0 ≠ [] ∧
    outputRecords nftA txBurn0 = [] ∧
    sum_token_amount (token_app_of nftA) txBurn0.outs = some 0 ∧
    sum_token_amount (token_app_of nftA) (inputCharms txBurn0) = some 0 ∧
    nft_contract_satisfied nftA txBurn0 Data.empty = some true := by decide

/-- C5 amended: in a pure burn whose output token sum decodes to zero, the
NFT validator accepts regardless of the input token balance; the
strict-positivity requirement on the input balance applies only when the
output token sum fails to decode. -/
theorem C5_pure_burn_zero_output_accepts (app : App) (tx : Transaction)
    (w : Data) (i : Nat)
    (hmint : can_mint_gift_card_nft app tx w = some false)
    (hrec : inputRecords app tx ≠ [])
    (hout : charm_values app tx.outs = [])
    (hins : sum_token_amount (token_app_of app) (inputCharms tx) = some i)
    (houts : sum_token_amount (token_app_of app) tx.outs = some 0) :
    nft_contract_satisfied app tx w = some true := by
  have hcv : charm_values app (inputCharms tx) ≠ [] :=
    ne_nil_of_filterMap_ne_nil Data.asNft _ hrec
  have hburn : can_burn_gift_card app tx (token_app_of app) = true := by
    unfold can_burn_gift_card
    cases hir : inputRecords app tx with
    | nil => exact absurd hir hrec
    | cons r rest =>
      have hor : outputRecords app tx = [] := by
        unfold outputRecords
        rw [hout]
        rfl
      rw [hor, hins, houts]
      simp
  unfold nft_contract_satisfied
  rw [hmint]
  cases hcvl : charm_values app (inputCharms tx) with
  | nil => exact absurd hcvl hcv
  | cons d rest =>
    rw [hout, houts, hburn]
    simp

/-- Witness for the amended C5 at the concrete pure burn `txBurn0`. -/
theorem C5_pure_burn_zero_output_accepts_witness :
    nft_contract_satisfied nftA txBurn0 Data.empty = some true :=
  C5_pure_burn_zero_output_accepts nftA txBurn0 Data.empty 0
    (by decide) (by decide) (by decide) (by decide) (by decide)

/-- C1 counterexample: the redeem rule accepts a transaction that consumes
TWO companion gift card records, so acceptance does not require exactly
one input record. -/
theorem C1_counterexample :
    can_redeem_tokens tokA txRedeem2 = true ∧
    (inputRecords (nft_app_of tokA) txRedeem2).length = 2 := by decide

/-- C1 amended: the redeem-and-burn rule accepts only when at least one
input carries a companion gift card record and no output does, the total
output token balance is positive, does not exceed the FIRST input
record's remaining balance and does not exceed the total input token
balance, and the total input token balance does not exceed that first
record's remaining balance by more than the fixed tolerance 100. -/
theorem C1_redeem_accepts_only_if (token_app : App) (tx : Transaction)
    (h : can_redeem_tokens token_app tx = true) :
    ∃ r rest i o,
      inputRecords (nft_app_of token_app) tx = r :: rest ∧
      outputRecords (nft_app_of token_app) tx = [] ∧
      sum_token_amount token_app (inputCharms tx) = some i ∧
      sum_token_amount token_app tx.outs = some o ∧
      0 < o ∧ o ≤ r.remaining_balance ∧ o ≤ i ∧
      i ≤ r.remaining_balance + 100 := by
  unfold can_redeem_tokens at h
  cases hir : inputRecords (nft_app_of token_app) tx with
  | nil => rw [hir] at h; exact absurd h (by simp)
  | cons r rest =>
    rw [hir] at h
    cases hor : outputRecords (nft_app_of token_app) tx with
    | cons q qrest => rw [hor] at h; exact absurd h (by simp)
    | nil =>
      rw [hor] at h
      cases hi : sum_token_amount token_app (inputCharms tx) with
      | none => rw [hi] at h; exact absurd h (by simp)
      | some i =>
        rw [hi] at h
        cases ho : sum_token_amount token_app tx.outs with
        | none => rw [ho] at h; exact absurd h (by simp)
        | some o =>
          rw [ho] at h
          simp only [List.isEmpty_nil, if_true] at h
          by_cases h1 : o = 0
          · rw [if_pos h1] at h; cases h
          rw [if_neg h1] at h
          by_cases h2 : r.remaining_balance < o
          · rw [if_pos h2] at h; cases h
          rw [if_neg h2] at h
          by_cases h3 : i < o
          · rw [if_pos h3] at h; cases h
          rw [if_neg h3] at h
          by_cases h4 : r.remaining_balance + 100 < i
          · rw [if_pos h4] at h; cases h
          exact ⟨r, rest, i, o, rfl, rfl, rfl, rfl,
            by omega, by omega, by omega, by omega⟩

/-- Witness for the amended C1 at the well-formed redeem `txRedeem1`. -/
theorem C1_redeem_accepts_only_if_witness :
    ∃ r rest i o,
      inputRecords (nft_app_of tokA) txRedeem1 = r :: rest ∧
      outputRecords (nft_app_of tokA) txRedeem1 = [] ∧
      sum_token_amount tokA (inputCharms txRedeem1) = some i ∧
      sum_token_amount tokA txRedeem1.outs = some o ∧
      0 < o ∧ o ≤ r.remaining_balance ∧ o ≤ i ∧
      i ≤ r.remaining_balance + 100 :=
  C1_redeem_accepts_only_if tokA txRedeem1 (by decide)

/-- C2 counterexample: the initial-issuance rule accepts a transaction
producing TWO companion gift card records, so acceptance does not require
exactly one output record. -/
theorem C2_counterexample :
    can_mint_initial_tokens tokA txMint2 = true ∧
    (outputRecords (nft_app_of tokA) txMint2).length = 2 := by decide

/-- C2 amended: the initial-issuance rule accepts only when at least one
output carries a companion gift card record, no input carries any
NFT-role value, the total input token balance is zero, and the total
output token balance equals the FIRST output record's initial amount. -/
theorem C2_initial_mint_accepts_only_if (token_app : App) (tx : Transaction)
    (h : can_mint_initial_tokens token_app tx = true) :
    ∃ r rest,
      outputRecords (nft_app_of token_app) tx = r :: rest ∧
      (∀ p ∈ tx.ins, charmValue (nft_app_of token_app) p.2 = none) ∧
      sum_token_amount token_app (inputCharms tx) = some 0 ∧
      sum_token_amount token_app tx.outs = some r.initial_amount := by
  unfold can_mint_initial_tokens at h
  cases hor : outputRecords (nft_app_of token_app) tx with
  | nil => rw [hor] at h; exact absurd h (by simp)
  | cons r rest =>
    rw [hor] at h
    simp only [] at h
    by_cases ha : tx.ins.any
        (fun p => (charmValue (nft_app_of token_app) p.2).isSome)
    · rw [if_pos ha] at h; cases h
    rw [if_neg ha] at h
    have hnone : ∀ p ∈ tx.ins, charmValue (nft_app_of token_app) p.2 = none := by
      intro p hp
      cases hcv : charmValue (nft_app_of token_app) p.2 with
      | none => rfl
      | some d =>
        exact absurd (List.any_eq_true.mpr ⟨p, hp, by simp [hcv]⟩) ha
    cases hi : sum_token_amount token_app (inputCharms tx) with
    | none => rw [hi] at h; exact absurd h (by simp)
    | some i =>
      rw [hi] at h
      simp only [] at h
      by_cases hz : i = 0
      · subst hz
        rw [if_pos rfl] at h
        cases ho : sum_token_amount token_app tx.outs with
        | none => rw [ho] at h; exact absurd h (by simp)
        | some o =>
          rw [ho] at h
          have : o = r.initial_amount := by simpa using h
          exact ⟨r, rest, rfl, hnone, rfl, by rw [this]⟩
      · rw [if_neg hz] at h; cases h

/-- Witness for the amended C2 at the well-formed issuance `txMint1`. -/
theorem C2_initial_mint_accepts_only_if_witness :
    ∃ r rest,
      outputRecords (nft_app_of tokA) txMint1 = r :: rest ∧
      (∀ p ∈ txMint1.ins, charmValue (nft_app_of tokA) p.2 = none) ∧
      sum_token_amount tokA (inputCharms txMint1) = some 0 ∧
      sum_token_amount tokA txMint1.outs = some r.initial_amount :=
  C2_initial_mint_accepts_only_if tokA txMint1 (by decide)

/-- C3: the NFT mint rule accepts only when the witness decodes to a
funding-reference text whose hash equals the contract identity, that
reference parses and identifies one of the transaction's inputs, exactly
one output carries a gift card record for the NFT role, and that record's
remaining balance equals its initial amount. -/
theorem C3_nft_mint_accepts_only_if (nft_app : App) (tx : Transaction)
    (w : Data) (h : can_mint_gift_card_nft nft_app tx w = some true) :
    ∃ s u r,
      w.asString = some s ∧
      hash s = nft_app.identity ∧
      UtxoId.from_str s = some u ∧
      (∃ p ∈ tx.ins, p.1 = u) ∧
      outputRecords nft_app tx = [r] ∧
      r.remaining_balance = r.initial_amount := by
  unfold can_mint_gift_card_nft at h
  cases hs : w.asString with
  | none => rw [hs] at h; cases h
  | some s =>
    rw [hs] at h
    simp only [] at h
    by_cases hh : hash s = nft_app.identity
    · rw [if_pos hh] at h
      cases hu : UtxoId.from_str s with
      | none => rw [hu] at h; cases h
      | some u =>
        rw [hu] at h
        simp only [] at h
        by_cases hany : (tx.ins.any fun p => decide (p.1 = u)) = true
        · rw [if_pos hany] at h
          obtain ⟨p, hp, hpu⟩ := List.any_eq_true.mp hany
          cases hcv : charm_values nft_app tx.outs with
          | nil => rw [hcv] at h; cases h
          | cons d rest =>
            cases rest with
            | cons d2 rest2 => rw [hcv] at h; cases h
            | nil =>
              rw [hcv] at h
              simp only [] at h
              cases hanft : d.asNft with
              | none => rw [hanft] at h; cases h
              | some r =>
                rw [hanft] at h
                refine ⟨s, u, r, rfl, hh, hu, ⟨p, hp, of_decide_eq_true hpu⟩,
                  ?_, ?_⟩
                · unfold outputRecords
                  rw [hcv]
                  simp [hanft]
                · simpa using h
        · rw [if_neg hany] at h; cases h
    · rw [if_neg hh] at h; cases h

set_option maxRecDepth 8000 in
/-- Witness for C3 at the well-formed NFT mint `txNftMint`. -/
theorem C3_nft_mint_accepts_only_if_witness :
    ∃ s u r,
      (Data.str mintStr).asString = some s ∧
      hash s = mintNftApp.identity ∧
      UtxoId.from_str s = some u ∧
      (∃ p ∈ txNftMint.ins, p.1 = u) ∧
      outputRecords mintNftApp txNftMint = [r] ∧
      r.remaining_balance = r.initial_amount :=
  C3_nft_mint_accepts_only_if mintNftApp txNftMint (Data.str mintStr)
    (by decide)

/-- C4: the conserving-transfer rule accepts only when the input and
output token totals decode to the same value; when any input carries a
companion record, the input records' remaining balances sum to that total;
and every output carrying a companion record carries a token amount equal
to that record's remaining balance in the same output. -/
theorem C4_token_transfer_accepts_only_if (token_app : App)
    (tx : Transaction) (h : can_transfer_tokens token_app tx = true) :
    ∃ s,
      sum_token_amount token_app (inputCharms tx) = some s ∧
      sum_token_amount token_app tx.outs = some s ∧
      (inputRecords (nft_app_of token_app) tx ≠ [] →
        ((inputRecords (nft_app_of token_app) tx).map
          (fun nft => nft.remaining_balance)).sum = s) ∧
      (∀ out ∈ tx.outs, ∀ nft,
        (charmValue (nft_app_of token_app) out).bind Data.asNft = some nft →
        sum_token_amount token_app [out] = some nft.remaining_balance) := by
  unfold can_transfer_tokens at h
  cases hi : sum_token_amount token_app (inputCharms tx) with
  | none => rw [hi] at h; cases h
  | some i =>
    rw [hi] at h
    simp only [] at h
    cases ho : sum_token_amount token_app tx.outs with
    | none => rw [ho] at h; cases h
    | some o =>
      rw [ho] at h
      simp only [] at h
      by_cases heq : i = o
      · rw [if_pos heq] at h
        rw [Bool.and_eq_true] at h
        obtain ⟨h1, h2⟩ := h
        refine ⟨i, rfl, by rw [heq], ?_, ?_⟩
        · intro hne
          cases hir : inputRecords (nft_app_of token_app) tx with
          | nil => exact absurd hir hne
          | cons r rest =>
            rw [hir] at h1
            simp only [] at h1
            simpa using of_decide_eq_true h1
        · intro out hout nft hnft
          have hall := List.all_eq_true.mp h2 out hout
          rw [hnft] at hall
          simp only [] at hall
          cases hso : sum_token_amount token_app [out] with
          | none => rw [hso] at hall; cases hall
          | some t =>
            rw [hso] at hall
            simp only [] at hall
            have : nft.remaining_balance = t := of_decide_eq_true hall
            rw [this]
      · rw [if_neg heq] at h; cases h

/-- Witness for C4 at the conserving transfer `txXfer`. -/
theorem C4_token_transfer_accepts_only_if_witness :
    ∃ s,
      sum_token_amount tokA (inputCharms txXfer) = some s ∧
      sum_token_amount tokA txXfer.outs = some s ∧
      (inputRecords (nft_app_of tokA) txXfer ≠ [] →
        ((inputRecords (nft_app_of tokA) txXfer).map
          (fun nft => nft.remaining_balance)).sum = s) ∧
      (∀ out ∈ txXfer.outs, ∀ nft,
        (charmValue (nft_app_of tokA) out).bind Data.asNft = some nft →
        sum_token_amount tokA [out] = some nft.remaining_balance) :=
  C4_token_transfer_accepts_only_if tokA txXfer (by decide)

/-- C6: when the NFT role has records among both inputs and outputs and
the mint rule does not apply, the validator accepts only if the record
counts agree and each in-order input/output pair agrees on brand, image,
initial amount, expiration date and creation time (remaining balance is
deliberately left unconstrained on this path). -/
theorem C6_nft_transfer_accepts_only_if (app : App) (tx : Transaction)
    (w : Data)
    (hmint : can_mint_gift_card_nft app tx w = some false)
    (hin : inputRecords app tx ≠ [])
    (hout : outputRecords app tx ≠ [])
    (hacc : nft_contract_satisfied app tx w = some true) :
    (inputRecords app tx).length = (outputRecords app tx).length ∧
    ∀ p ∈ (inputRecords app tx).zip (outputRecords app tx),
      p.1.brand = p.2.brand ∧ p.1.image = p.2.image ∧
      p.1.initial_amount = p.2.initial_amount ∧
      p.1.expiration_date = p.2.expiration_date ∧
      p.1.created_at = p.2.created_at := by
  have hcvi : charm_values app (inputCharms tx) ≠ [] :=
    ne_nil_of_filterMap_ne_nil Data.asNft _ hin
  have hcvo : charm_values app tx.outs ≠ [] :=
    ne_nil_of_filterMap_ne_nil Data.asNft _ hout
  have hxfer : can_transfer_gift_card_nft app tx = true := by
    unfold nft_contract_satisfied at hacc
    rw [hmint] at hacc
    simp only [] at hacc
    cases hci : charm_values app (inputCharms tx) with
    | nil => exact absurd hci hcvi
    | cons d rest =>
      rw [hci] at hacc
      simp only [] at hacc
      cases hco : charm_values app tx.outs with
      | nil => exact absurd hco hcvo
      | cons d2 rest2 =>
        rw [hco] at hacc
        simpa using hacc
  unfold can_transfer_gift_card_nft at hxfer
  cases hir : inputRecords app tx with
  | nil => exact absurd hir hin
  | cons i irest =>
    rw [hir] at hxfer
    simp only [] at hxfer
    by_cases hlen : (i :: irest).length = (outputRecords app tx).length
    · rw [if_pos hlen] at hxfer
      refine ⟨hlen, ?_⟩
      intro p hp
      exact of_decide_eq_true (List.all_eq_true.mp hxfer p hp)
    · rw [if_neg hlen] at hxfer; cases hxfer

/-- Witness for C6 at the NFT transfer `txNftXfer`, in which only the
remaining balance changes. -/
theorem C6_nft_transfer_accepts_only_if_witness :
    (inputRecords nftA txNftXfer).length =
      (outputRecords nftA txNftXfer).length ∧
    ∀ p ∈ (inputRecords nftA txNftXfer).zip (outputRecords nftA txNftXfer),
      p.1.brand = p.2.brand ∧ p.1.image = p.2.image ∧
      p.1.initial_amount = p.2.initial_amount ∧
      p.1.expiration_date = p.2.expiration_date ∧
      p.1.created_at = p.2.created_at :=
  C6_nft_transfer_accepts_only_if nftA txNftXfer Data.empty
    (by decide) (by decide) (by decide) (by decide)

/-- C10 counterexample: a transaction with zero token sums on both sides
and no input record is nonetheless rejected by the transfer rule (and by
the whole TOKEN validator), because one output carries a companion record
with a positive remaining balance. -/
theorem C10_counterexample :
    sum_token_amount tokA (inputCharms txT) = some 0 ∧
    sum_token_amount tokA txT.outs = some 0 ∧
    inputRecords (nft_app_of tokA) txT = [] ∧
    can_transfer_tokens tokA txT = false ∧
    token_contract_satisfied tokA txT = false := by decide

/-- C10 amended: when both token sums decode to zero and no input and no
output carries a companion gift card record, the TOKEN validator accepts
the transaction via the conserving-transfer rule even though it involves
no asset of this contract at all. -/
theorem C10_no_asset_transfer_accepts (token_app : App) (tx : Transaction)
    (hins : sum_token_amount token_app (inputCharms tx) = some 0)
    (houts : sum_token_amount token_app tx.outs = some 0)
    (hinr : inputRecords (nft_app_of token_app) tx = [])
    (houtr : outputRecords (nft_app_of token_app) tx = []) :
    can_transfer_tokens token_app tx = true ∧
    token_contract_satisfied token_app tx = true := by
  have hxfer : can_transfer_tokens token_app tx = true := by
    unfold can_transfer_tokens
    rw [hins, houts]
    simp only [if_true]
    rw [Bool.and_eq_true]
    constructor
    · rw [hinr]
    · rw [List.all_eq_true]
      intro out hout
      have hnone : (charmValue (nft_app_of token_app) out).bind Data.asNft
          = none :=
        bind_none_of_filterMap_filterMap_nil (charmValue
          (nft_app_of token_app)) Data.asNft tx.outs houtr out hout
      rw [hnone]
  exact ⟨hxfer, by unfold token_contract_satisfied; rw [hxfer]; rfl⟩

/-- Witness for the amended C10 at the empty transaction. -/
theorem C10_no_asset_transfer_accepts_witness :
    can_transfer_tokens tokA txE = true ∧
    token_contract_satisfied tokA txE = true :=
  C10_no_asset_transfer_accepts tokA txE
    (by decide) (by decide) (by decide) (by decide)

end GiftCards
